import Mathlib

/-!
Shallow embedding of `jetnet/datasets/jetnet.py` (`JetNet.getData` and the class-level
tables it uses).  Feature values are modelled as rationals; a 2-D numpy array is a list
of rows, a 3-D array a list of lists of rows.  Helper functions that live in
`jetnet/datasets/utils.py` (absent from the provided sources) are modelled from the
spec, each marked `Modelled from the spec:` in its doc comment.  File I/O performed by
`checkDownloadZenodoDataset` / `h5py.File` is recorded as an event trace so that
ordering of validation errors relative to I/O can be stated.
-/

namespace JetNetData

/-- One feature value (numpy floats modelled as rationals). -/
abbrev Val := ℚ

/-- One aggregate (jet) feature row, or one particle's channel row. -/
abbrev Row := List Val

/-- A 2-D array `[examples, channels]`. -/
abbrev Tensor2 := List Row

/-- A 3-D array `[examples, elements, channels]`. -/
abbrev Tensor3 := List (List Row)

/-- `JetNet.jet_types` (line 59). -/
def jet_types : List String := ["g", "t", "q", "w", "z"]

/-- `JetNet.particle_features_order` (line 60). -/
def particle_features_order : List String := ["etarel", "phirel", "ptrel", "mask"]

/-- `JetNet.jet_features_order` (line 61). -/
def jet_features_order : List String := ["type", "pt", "eta", "mass", "num_particles"]

/-- `JetNet.splits` (line 62). -/
def splits : List String := ["train", "valid", "test", "all"]

/-- `JetNet._zenodo_record_ids` (line 57): record looked up by `"150" if use_150 else "30"`. -/
def zenodoRecordId (use150 : Bool) : ℕ := if use150 then 6975117 else 6975118

/-- Error taxonomy of the pipeline (spec section 7 names for the Python failures). -/
inductive DataError
  | UnknownFeatureError (name : String)
  | EmptyRequestError
  | InvalidCategoryError (name : String)
  | InvalidSplitError (name : String)
deriving DecidableEq, Repr

/-- A file-I/O step performed by the loop body (download from Zenodo, open the hdf5). -/
inductive FetchEvent
  | download (dname : String) (recordId : ℕ)
  | openFile (dname : String)
deriving DecidableEq, Repr

/-- Modelled from the spec: `checkConvertElements` — the "all" shorthand expands to the
full closed category list; otherwise every requested category name must belong to the
closed set, else `InvalidCategoryError` (the code lives in `utils.py`, not in the given
sources). -/
def checkConvertElements (elems : List String) : Except DataError (List String) :=
  if elems = ["all"] then .ok jet_types
  else
    match elems.find? (fun j => !(jet_types.contains j)) with
    | some bad => .error (.InvalidCategoryError bad)
    | none => .ok elems

/-- Modelled from the spec: `checkListNotEmpty` — a feature request is in use exactly
when the list is present and non-empty (the code lives in `utils.py`). -/
def checkListNotEmpty (l : Option (List String)) : Bool :=
  match l with
  | none => false
  | some xs => !xs.isEmpty

/-- Modelled from the spec: the permutation-computing half of `getOrderedFeatures`
(FeatureOrderCatalog.computePermutation in `utils.py`) — the position of each requested
name in the canonical order, `UnknownFeatureError` when a name is absent. -/
def orderIndices (features canonical : List String) : Except DataError (List ℕ) :=
  match features with
  | [] => .ok []
  | f :: rest =>
    if f ∈ canonical then
      match orderIndices rest canonical with
      | .ok idxs => .ok (canonical.indexOf f :: idxs)
      | .error e => .error e
    else .error (.UnknownFeatureError f)

/-- Column selection along the channel axis by a list of canonical indices. -/
def selectCols (idxs : List ℕ) (row : Row) : Row :=
  idxs.map (fun i => row.getD i 0)

/-- Modelled from the spec: `getOrderedFeatures` on a 2-D array (`utils.py`) — a no-op
when the requested order equals the canonical one, otherwise the computed column
permutation is applied along the channel axis. -/
def getOrderedFeatures2 (data : Tensor2) (features canonical : List String) :
    Except DataError Tensor2 :=
  if features = canonical then .ok data
  else do
    let idxs ← orderIndices features canonical
    .ok (data.map (selectCols idxs))

/-- Modelled from the spec: `getOrderedFeatures` on a 3-D array (`utils.py`) — same
column permutation, applied along the last (channel) axis. -/
def getOrderedFeatures3 (data : Tensor3) (features canonical : List String) :
    Except DataError Tensor3 :=
  if features = canonical then .ok data
  else do
    let idxs ← orderIndices features canonical
    .ok (data.map (fun ex => ex.map (selectCols idxs)))

/-- Modelled from the spec: `firstNotNoneElement` followed by `len` (line 203) — the
length of whichever tensor is present; when neither is present the length computation
fails, which the spec names `EmptyRequestError`. -/
def presentLength (p : Option Tensor3) (j : Option Tensor2) : Except DataError ℕ :=
  match p with
  | some t => .ok t.length
  | none =>
    match j with
    | some t => .ok t.length
    | none => .error .EmptyRequestError

/-- Modelled from the spec: `getSplitting` (`utils.py`, SplitPartitioner) — cut points
`c0 = round(f_train * N)`, `c1 = round((f_train + f_valid) * N)`; "train" is `[0, c0)`,
"valid" `[c0, c1)`, "test" `[c1, N)`, "all" `[0, N)`; an unknown split name is
`InvalidSplitError`. -/
def getSplitting (length : ℕ) (split : String) (fracs : ℚ × ℚ × ℚ) :
    Except DataError (ℤ × ℤ) :=
  if split ∉ splits then .error (.InvalidSplitError split)
  else if split = "all" then .ok (0, (length : ℤ))
  else
    let c0 : ℤ := round (fracs.1 * (length : ℚ))
    let c1 : ℤ := round ((fracs.1 + fracs.2.1) * (length : ℚ))
    if split = "train" then .ok (0, c0)
    else if split = "valid" then .ok (c0, c1)
    else .ok (c1, (length : ℤ))

/-- A 64-bit linear congruential step, the deterministic state transition of the
modelled generator. -/
def lcgNext (s : ℕ) : ℕ := (6364136223846793005 * s + 1442695040888963407) % (2 ^ 64)

/-- Draw a permutation of `l`: repeatedly pick the element at a state-derived position
and recurse on the rest (the modelled `np.random.permutation` draw). -/
def fyDraw (s : ℕ) (l : List ℕ) : List ℕ :=
  if h : l = [] then []
  else
    l.getD (s % l.length) 0 :: fyDraw (lcgNext s) (l.erase (l.getD (s % l.length) 0))
termination_by l.length
decreasing_by
  have hlen : 0 < l.length := List.length_pos.mpr h
  have hm : l.getD (s % l.length) 0 ∈ l := by
    have hlt : s % l.length < l.length := Nat.mod_lt _ hlen
    rw [List.getD_eq_getElem l 0 hlt]
    exact List.getElem_mem hlt
  have := List.length_erase_of_mem hm
  omega

/-- The global numpy RNG state (numpy's Mersenne Twister abstracted to one word;
only its seeding discipline matters to the pipeline). -/
structure NpRandomState where
  val : ℕ
deriving DecidableEq, Repr

/-- `np.random.seed(seed)` (line 208): the global state is replaced by a state derived
from the seed alone — whatever it was before is discarded. -/
def npSeed (seed : ℕ) : NpRandomState := ⟨lcgNext seed⟩

/-- `np.random.permutation(length)` (line 209): a deterministic permutation of
`[0, length)` drawn from the current state. -/
def npPermutation (st : NpRandomState) (n : ℕ) : List ℕ :=
  fyDraw st.val (List.range n)

/-- Lines 206-209: compute the split boundaries, then reseed the global generator and
draw the row permutation.  `st0` is the global RNG state on entry; `np.random.seed`
overwrites it, so it does not influence the result. -/
def shuffleSplit (st0 : NpRandomState) (length : ℕ) (split : String)
    (fracs : ℚ × ℚ × ℚ) (seed : ℕ) : Except DataError (List ℕ × ℤ × ℤ) :=
  match getSplitting length split fracs with
  | .error e => .error e
  | .ok (lcut, rcut) =>
    let _ := st0
    .ok (npPermutation (npSeed seed) length, lcut, rcut)

/-- Numpy fancy indexing `t[perm]`: row `k` of the result is row `perm[k]` of `t`. -/
def permuteRows [Inhabited α] (t : List α) (perm : List ℕ) : List α :=
  perm.map (fun k => t.getD k default)

/-- Numpy slicing `t[lcut:rcut]` for non-negative cuts. -/
def sliceRows (t : List α) (lcut rcut : ℤ) : List α :=
  (t.drop lcut.toNat).take (rcut.toNat - lcut.toNat)

/-- Line 172: `np.array(f["particle_features"])[:, :num_particles]` — keep the first
`cap` elements of every example. -/
def truncateParticles (cap : ℕ) (pf : Tensor3) : Tensor3 :=
  pf.map (fun ex => ex.take cap)

/-- Lines 184-193: prepend the class index as a new leading channel, keep the next
three raw channels verbatim, clamp every remaining channel to `min(value, cap)`. -/
def buildJet (classIndex : ℕ) (cap : ℚ) (jf : Tensor2) : Tensor2 :=
  jf.map (fun row =>
    ((classIndex : ℚ)) :: (row.take 3 ++ (row.drop 3).map (fun v => min v cap)))

/-- Line 161: `dname = f"\x7bj\x7d\x7b'150' if use_150 else ''\x7d"`. -/
def dnameOf (use150 : Bool) (j : String) : String :=
  if use150 then j ++ "150" else j

/-- The two I/O steps of one loop iteration (lines 163-170): download the dataset file
for the chosen resolution variant, then open it. -/
def categoryEvents (use150 : Bool) (j : String) : List FetchEvent :=
  [.download (dnameOf use150 j) (zenodoRecordId use150), .openFile (dnameOf use150 j)]

/-- Loop body lines 170-198 for one category, after the file has been read: truncate
and reorder particle features, build and reorder jet features.  `raw j` is the pair of
raw arrays stored in category `j`'s file. -/
def loadCategory (raw : String → Tensor3 × Tensor2) (usePF useJF : Bool)
    (pfeats jfeats : List String) (cap : ℕ) (j : String) :
    Except DataError (Option Tensor3 × Option Tensor2) := do
  let pf ←
    if usePF then
      (getOrderedFeatures3 (truncateParticles cap (raw j).1)
        pfeats particle_features_order).map some
    else .ok none
  let jf ←
    if useJF then
      (getOrderedFeatures2 (buildJet (jet_types.indexOf j) (cap : ℚ) (raw j).2)
        jfeats jet_features_order).map some
    else .ok none
  .ok (pf, jf)

/-- The `for j in jet_type` loop (lines 160-198): per category, the two I/O events then
the pure processing; on a processing error the loop stops with the events so far. -/
def getDataLoop (raw : String → Tensor3 × Tensor2) (use150 usePF useJF : Bool)
    (pfeats jfeats : List String) (cap : ℕ) :
    List String → List FetchEvent × Except DataError (List (Option Tensor3 × Option Tensor2))
  | [] => ([], .ok [])
  | j :: rest =>
    let evs := categoryEvents use150 j
    match loadCategory raw usePF useJF pfeats jfeats cap j with
    | .error e => (evs, .error e)
    | .ok pj =>
      let (evs2, r2) := getDataLoop raw use150 usePF useJF pfeats jfeats cap rest
      (evs ++ evs2, r2.map (fun l => pj :: l))

/-- Line 200: row-wise concatenation of the per-category particle tensors (present
exactly when particle features are in use). -/
def concatParticle (usePF : Bool) (l : List (Option Tensor3 × Option Tensor2)) :
    Option Tensor3 :=
  if usePF then some (l.map (fun pj => pj.1.getD [])).flatten else none

/-- Line 201: row-wise concatenation of the per-category jet tensors. -/
def concatJet (useJF : Bool) (l : List (Option Tensor3 × Option Tensor2)) :
    Option Tensor2 :=
  if useJF then some (l.map (fun pj => pj.2.getD [])).flatten else none

/-- Lines 211-215: the one permutation and the one `[lcut, rcut)` slice, applied
identically to whichever of the two concatenated tensors is present. -/
def applySelection (perm : List ℕ) (lcut rcut : ℤ)
    (p : Option Tensor3) (j : Option Tensor2) : Option Tensor3 × Option Tensor2 :=
  (p.map (fun t => sliceRows (permuteRows t perm) lcut rcut),
   j.map (fun t => sliceRows (permuteRows t perm) lcut rcut))

/-- Lines 200-217: concatenate the per-category results, compute the combined length,
shuffle-and-split, and apply the selection identically to both tensors. -/
def getDataAssemble (st0 : NpRandomState) (usePF useJF : Bool)
    (pjs : List (Option Tensor3 × Option Tensor2)) (split : String)
    (split_fraction : ℚ × ℚ × ℚ) (seed : ℕ) :
    Except DataError (Option Tensor3 × Option Tensor2) :=
  match presentLength (concatParticle usePF pjs) (concatJet useJF pjs) with
  | .error e => .error e
  | .ok length =>
    match shuffleSplit st0 length split split_fraction seed with
    | .error e => .error e
    | .ok (perm, lcut, rcut) =>
      .ok (applySelection perm lcut rcut
        (concatParticle usePF pjs) (concatJet useJF pjs))

/-- Lines 154-217 of getData, once the category set has been resolved: run the loop,
then hand its results to the assembly stage. -/
def getDataStage2 (st0 : NpRandomState) (raw : String → Tensor3 × Tensor2)
    (particle_features jet_features : Option (List String)) (num_particles : ℕ)
    (split : String) (split_fraction : ℚ × ℚ × ℚ) (seed : ℕ) (cats : List String) :
    List FetchEvent × Except DataError (Option Tensor3 × Option Tensor2) :=
  match getDataLoop raw (decide (30 < num_particles))
      (checkListNotEmpty particle_features) (checkListNotEmpty jet_features)
      (particle_features.getD []) (jet_features.getD []) num_particles cats with
  | (evs, .error e) => (evs, .error e)
  | (evs, .ok pjs) =>
    (evs, getDataAssemble st0 (checkListNotEmpty particle_features)
      (checkListNotEmpty jet_features) pjs split split_fraction seed)

/-- `JetNet.getData` (lines 110-217).  `st0` is the global numpy RNG state on entry and
`raw` the content of the category files; the first component of the result is the trace
of file-I/O events that happened before getData returned or raised. -/
def getData (st0 : NpRandomState) (raw : String → Tensor3 × Tensor2)
    (jetType : List String) (particle_features jet_features : Option (List String))
    (num_particles : ℕ) (split : String) (split_fraction : ℚ × ℚ × ℚ) (seed : ℕ) :
    List FetchEvent × Except DataError (Option Tensor3 × Option Tensor2) :=
  match checkConvertElements jetType with
  | .error e => ([], .error e)
  | .ok cats =>
    getDataStage2 st0 raw particle_features jet_features num_particles split
      split_fraction seed cats

/-! ## Helper lemmas -/

theorem fyDraw_perm_aux (n : ℕ) :
    ∀ (l : List ℕ), l.length = n → ∀ s, (fyDraw s l).Perm l := by
  induction n using Nat.strong_induction_on with
  | _ n ih =>
    intro l hl s
    by_cases h : l = []
    · subst h; simp [fyDraw]
    · rw [fyDraw, dif_neg h]
      have hlen : 0 < l.length := List.length_pos.mpr h
      have hmem : l.getD (s % l.length) 0 ∈ l := by
        rw [List.getD_eq_getElem l 0 (Nat.mod_lt _ hlen)]
        exact List.getElem_mem _
      have hel : (l.erase (l.getD (s % l.length) 0)).length = l.length - 1 :=
        List.length_erase_of_mem hmem
      subst hl
      have hrec := ih (l.erase (l.getD (s % l.length) 0)).length (by omega) _ rfl (lcgNext s)
      exact (hrec.cons _).trans (List.perm_cons_erase hmem).symm

theorem fyDraw_perm (s : ℕ) (l : List ℕ) : (fyDraw s l).Perm l :=
  fyDraw_perm_aux l.length l rfl s

theorem round_rat_mono {a b : ℚ} (h : a ≤ b) : round a ≤ round b := by
  rw [round_eq, round_eq]
  exact Int.floor_mono (by linarith)

theorem sliceRows_permuteRows_getD [Inhabited α] (t : List α) (perm : List ℕ)
    (lcut rcut : ℤ) (i : ℕ) (hp : lcut.toNat + i < perm.length)
    (hi : i < rcut.toNat - lcut.toNat) :
    (sliceRows (permuteRows t perm) lcut rcut).getD i default
      = t.getD (perm.getD (lcut.toNat + i) 0) default := by
  have hlenm : (permuteRows t perm).length = perm.length := List.length_map _ _
  have hdl : i < ((permuteRows t perm).drop lcut.toNat).length := by
    rw [List.length_drop, hlenm]; omega
  have h1 : i < (sliceRows (permuteRows t perm) lcut rcut).length := by
    unfold sliceRows
    rw [List.length_take]
    exact lt_min hi hdl
  rw [List.getD_eq_getElem _ _ h1]
  simp only [sliceRows, permuteRows]
  rw [List.getElem_take, List.getElem_drop, List.getElem_map]
  congr 1
  exact (List.getD_eq_getElem perm 0 hp).symm

/-! ## Claim theorems -/

/-- C1: two invocations of getData's shuffle-and-split step with identical `(N, seed)`
(and arbitrary, possibly different, pre-existing global RNG states) return identical
cut boundaries and identical index lists, because `np.random.seed` replaces the global
state by one derived from the seed alone; and the drawn index list is a permutation of
`[0, N)`. -/
theorem shuffle_split_deterministic (st1 st2 : NpRandomState) (N : ℕ)
    (split : String) (fracs : ℚ × ℚ × ℚ) (seed : ℕ) :
    shuffleSplit st1 N split fracs seed = shuffleSplit st2 N split fracs seed ∧
    (npPermutation (npSeed seed) N).Perm (List.range N) :=
  ⟨rfl, fyDraw_perm _ _⟩

/-- C2: for every row count `N` and valid fraction triple, the "train"/"valid"/"test"
index ranges computed by the split step are pairwise disjoint and their union is
`[0, N)`; "all" yields the full range for every fraction triple. -/
theorem split_ranges_partition (N : ℕ) (f1 f2 f3 : ℚ)
    (h1 : 0 ≤ f1) (h2 : 0 ≤ f2) (h3 : 0 ≤ f3) (hsum : f1 + f2 + f3 ≤ 1) :
    ∃ c0 c1 : ℤ,
      getSplitting N "train" (f1, f2, f3) = .ok (0, c0) ∧
      getSplitting N "valid" (f1, f2, f3) = .ok (c0, c1) ∧
      getSplitting N "test" (f1, f2, f3) = .ok (c1, (N : ℤ)) ∧
      Disjoint (Finset.Ico (0 : ℤ) c0) (Finset.Ico c0 c1) ∧
      Disjoint (Finset.Ico c0 c1) (Finset.Ico c1 (N : ℤ)) ∧
      Disjoint (Finset.Ico (0 : ℤ) c0) (Finset.Ico c1 (N : ℤ)) ∧
      Finset.Ico (0 : ℤ) c0 ∪ Finset.Ico c0 c1 ∪ Finset.Ico c1 (N : ℤ)
        = Finset.Ico (0 : ℤ) (N : ℤ) ∧
      ∀ g : ℚ × ℚ × ℚ, getSplitting N "all" g = .ok (0, (N : ℤ)) := by
  have hN : (0 : ℚ) ≤ (N : ℚ) := Nat.cast_nonneg N
  have hc0 : (0 : ℤ) ≤ round (f1 * (N : ℚ)) := by
    simpa using round_rat_mono (mul_nonneg h1 hN)
  have hc01 : round (f1 * (N : ℚ)) ≤ round ((f1 + f2) * (N : ℚ)) :=
    round_rat_mono (mul_le_mul_of_nonneg_right (by linarith) hN)
  have hc1N : round ((f1 + f2) * (N : ℚ)) ≤ (N : ℤ) := by
    have hle : (f1 + f2) * (N : ℚ) ≤ (N : ℚ) := by
      have := mul_le_mul_of_nonneg_right (show f1 + f2 ≤ 1 by linarith) hN
      simpa using this
    simpa using round_rat_mono hle
  refine ⟨round (f1 * (N : ℚ)), round ((f1 + f2) * (N : ℚ)), rfl, rfl, rfl,
    Finset.Ico_disjoint_Ico_consecutive _ _ _,
    Finset.Ico_disjoint_Ico_consecutive _ _ _, ?_, ?_, fun g => rfl⟩
  · refine Finset.disjoint_left.mpr ?_
    intro a ha hb
    simp only [Finset.mem_Ico] at ha hb
    omega
  · rw [Finset.Ico_union_Ico_eq_Ico hc0 hc01,
      Finset.Ico_union_Ico_eq_Ico (le_trans hc0 hc01) hc1N]

/-- Witness for C2 at `N = 10`, fractions `(7/10, 3/20, 3/20)`. -/
theorem split_ranges_partition_witness :
    ((0 : ℚ) ≤ 7/10 ∧ (0 : ℚ) ≤ 3/20 ∧ (0 : ℚ) ≤ 3/20 ∧
      (7/10 : ℚ) + 3/20 + 3/20 ≤ 1) ∧
    ∃ c0 c1 : ℤ,
      getSplitting 10 "train" (7/10, 3/20, 3/20) = .ok (0, c0) ∧
      getSplitting 10 "valid" (7/10, 3/20, 3/20) = .ok (c0, c1) ∧
      getSplitting 10 "test" (7/10, 3/20, 3/20) = .ok (c1, (10 : ℤ)) ∧
      Disjoint (Finset.Ico (0 : ℤ) c0) (Finset.Ico c0 c1) ∧
      Disjoint (Finset.Ico c0 c1) (Finset.Ico c1 (10 : ℤ)) ∧
      Disjoint (Finset.Ico (0 : ℤ) c0) (Finset.Ico c1 (10 : ℤ)) ∧
      Finset.Ico (0 : ℤ) c0 ∪ Finset.Ico c0 c1 ∪ Finset.Ico c1 (10 : ℤ)
        = Finset.Ico (0 : ℤ) (10 : ℤ) ∧
      ∀ g : ℚ × ℚ × ℚ, getSplitting 10 "all" g = .ok (0, (10 : ℤ)) :=
  ⟨by norm_num,
    split_ranges_partition 10 (7/10) (3/20) (3/20)
      (by norm_num) (by norm_num) (by norm_num) (by norm_num)⟩

/-- C3: getData's final selection applies the one shared permutation and the one
shared `[lcut, rcut)` slice to both tensors, and row `i` of each selected tensor is
row `perm[lcut + i]` of the corresponding pre-selection tensor — the same source row
for both, so the particle and jet tensors stay row-aligned. -/
theorem rows_stay_aligned (p : Tensor3) (jt : Tensor2) (perm : List ℕ)
    (lcut rcut : ℤ) (i : ℕ) (hp : lcut.toNat + i < perm.length)
    (hi : i < rcut.toNat - lcut.toNat) :
    applySelection perm lcut rcut (some p) (some jt)
      = (some (sliceRows (permuteRows p perm) lcut rcut),
         some (sliceRows (permuteRows jt perm) lcut rcut)) ∧
    (sliceRows (permuteRows p perm) lcut rcut).getD i []
      = p.getD (perm.getD (lcut.toNat + i) 0) [] ∧
    (sliceRows (permuteRows jt perm) lcut rcut).getD i []
      = jt.getD (perm.getD (lcut.toNat + i) 0) [] :=
  ⟨rfl, sliceRows_permuteRows_getD p perm lcut rcut i hp hi,
    sliceRows_permuteRows_getD jt perm lcut rcut i hp hi⟩

/-- Witness for C3 with one-row tensors and the identity permutation. -/
theorem rows_stay_aligned_witness :
    ((0 : ℤ).toNat + 0 < [0].length ∧ 0 < (1 : ℤ).toNat - (0 : ℤ).toNat) ∧
    (applySelection [0] 0 1 (some [[[(5 : ℚ)]]]) (some [[(6 : ℚ)]])
      = (some (sliceRows (permuteRows [[[(5 : ℚ)]]] [0]) 0 1),
         some (sliceRows (permuteRows [[(6 : ℚ)]] [0]) 0 1)) ∧
    (sliceRows (permuteRows [[[(5 : ℚ)]]] [0]) 0 1).getD 0 []
      = [[[(5 : ℚ)]]].getD ([0].getD ((0 : ℤ).toNat + 0) 0) [] ∧
    (sliceRows (permuteRows [[(6 : ℚ)]] [0]) 0 1).getD 0 []
      = [[(6 : ℚ)]].getD ([0].getD ((0 : ℤ).toNat + 0) 0) []) :=
  ⟨⟨by decide, by decide⟩,
    rows_stay_aligned [[[(5 : ℚ)]]] [[(6 : ℚ)]] [0] 0 1 0 (by decide) (by decide)⟩

/-- C4: row `i` of the jet tensor handed to reordering is the category's ordinal index
in `jet_types` as a new leading channel, then the next three raw channels unchanged,
then every remaining raw channel clamped to `min(value, cap)`; every clamped value is
at most the cap. -/
theorem jet_label_and_clamp (j : String) (cap : ℚ) (jf : Tensor2) (i : ℕ)
    (hi : i < jf.length) :
    (buildJet (jet_types.indexOf j) cap jf).getD i []
      = ((jet_types.indexOf j : ℕ) : ℚ)
          :: ((jf.getD i []).take 3
              ++ ((jf.getD i []).drop 3).map (fun v => min v cap)) ∧
    ∀ v ∈ ((jf.getD i []).drop 3).map (fun v => min v cap), v ≤ cap := by
  constructor
  · have hlen : i < (buildJet (jet_types.indexOf j) cap jf).length := by
      simpa [buildJet] using hi
    rw [List.getD_eq_getElem _ _ hlen, List.getD_eq_getElem jf [] hi]
    simp [buildJet]
  · intro v hv
    rcases List.mem_map.mp hv with ⟨w, _, rfl⟩
    exact min_le_right _ _

/-- Witness for C4 at category "t", cap 30, one raw row `[1, 2, 3, 4, 5]`. -/
theorem jet_label_and_clamp_witness :
    (0 < [[(1 : ℚ), 2, 3, 4, 5]].length) ∧
    ((buildJet (jet_types.indexOf "t") 30 [[(1 : ℚ), 2, 3, 4, 5]]).getD 0 []
      = ((jet_types.indexOf "t" : ℕ) : ℚ)
          :: (([[(1 : ℚ), 2, 3, 4, 5]].getD 0 []).take 3
              ++ (([[(1 : ℚ), 2, 3, 4, 5]].getD 0 []).drop 3).map (fun v => min v 30)) ∧
    ∀ v ∈ (([[(1 : ℚ), 2, 3, 4, 5]].getD 0 []).drop 3).map (fun v => min v 30),
      v ≤ 30) :=
  ⟨by decide, jet_label_and_clamp "t" 30 [[(1 : ℚ), 2, 3, 4, 5]] 0 (by decide)⟩

/-- C8: particle truncation keeps exactly the first `cap` elements of every example
(when the raw example has at least `cap` elements), and each kept element row is
unchanged. -/
theorem particle_truncation (cap : ℕ) (pf : Tensor3) (i : ℕ) (hi : i < pf.length)
    (hcap : cap ≤ (pf.getD i []).length) :
    ((truncateParticles cap pf).getD i []).length = cap ∧
    ∀ k, k < cap → ((truncateParticles cap pf).getD i []).getD k []
      = (pf.getD i []).getD k [] := by
  have hlen : i < (truncateParticles cap pf).length := by
    simpa [truncateParticles] using hi
  have hrow : (truncateParticles cap pf).getD i [] = (pf.getD i []).take cap := by
    rw [List.getD_eq_getElem _ _ hlen, List.getD_eq_getElem pf [] hi]
    simp [truncateParticles]
  rw [hrow]
  constructor
  · rw [List.length_take]
    exact min_eq_left hcap
  · intro k hk
    have hkl : k < (pf.getD i []).length := lt_of_lt_of_le hk hcap
    have hk2 : k < ((pf.getD i []).take cap).length := by
      rw [List.length_take]
      exact lt_min hk hkl
    rw [List.getD_eq_getElem _ _ hk2, List.getElem_take,
      List.getD_eq_getElem _ _ hkl]

/-- Witness for C8 at cap 2 over one example with three elements. -/
theorem particle_truncation_witness :
    (0 < [[[(1 : ℚ)], [2], [3]]].length ∧
      2 ≤ ([[[(1 : ℚ)], [2], [3]]].getD 0 []).length) ∧
    (((truncateParticles 2 [[[(1 : ℚ)], [2], [3]]]).getD 0 []).length = 2 ∧
    ∀ k, k < 2 → ((truncateParticles 2 [[[(1 : ℚ)], [2], [3]]]).getD 0 []).getD k []
      = ([[[(1 : ℚ)], [2], [3]]].getD 0 []).getD k []) :=
  ⟨⟨by decide, by decide⟩,
    particle_truncation 2 [[[(1 : ℚ)], [2], [3]]] 0 (by decide) (by decide)⟩

/-! ## Lemmas about category resolution, the loop trace, and getData's structure -/

theorem checkConvertElements_single (j : String) (hj : j ∈ jet_types) :
    checkConvertElements [j] = .ok [j] := by
  have hja : j ≠ "all" := by
    intro he
    subst he
    revert hj
    decide
  have hc : jet_types.contains j = true := List.elem_eq_true_of_mem hj
  unfold checkConvertElements
  rw [if_neg (by simp [hja])]
  simp [List.find?_cons, hj]

theorem getData_eq_stage2 (st0 : NpRandomState) (raw : String → Tensor3 × Tensor2)
    (jetType : List String) (particle_features jet_features : Option (List String))
    (num_particles : ℕ) (split : String) (split_fraction : ℚ × ℚ × ℚ) (seed : ℕ)
    (cats : List String) (hcc : checkConvertElements jetType = .ok cats) :
    getData st0 raw jetType particle_features jet_features num_particles split
        split_fraction seed
      = getDataStage2 st0 raw particle_features jet_features num_particles split
          split_fraction seed cats := by
  unfold getData
  rw [hcc]

theorem stage2_of_loop_error (st0 : NpRandomState) (raw : String → Tensor3 × Tensor2)
    (particle_features jet_features : Option (List String))
    (num_particles : ℕ) (split : String) (split_fraction : ℚ × ℚ × ℚ) (seed : ℕ)
    (cats : List String) (evs : List FetchEvent) (e : DataError)
    (hL : getDataLoop raw (decide (30 < num_particles))
        (checkListNotEmpty particle_features) (checkListNotEmpty jet_features)
        (particle_features.getD []) (jet_features.getD []) num_particles cats
      = (evs, .error e)) :
    getDataStage2 st0 raw particle_features jet_features num_particles split
        split_fraction seed cats = (evs, .error e) := by
  unfold getDataStage2
  rw [hL]

theorem stage2_of_loop_ok (st0 : NpRandomState) (raw : String → Tensor3 × Tensor2)
    (particle_features jet_features : Option (List String))
    (num_particles : ℕ) (split : String) (split_fraction : ℚ × ℚ × ℚ) (seed : ℕ)
    (cats : List String) (evs : List FetchEvent)
    (pjs : List (Option Tensor3 × Option Tensor2))
    (hL : getDataLoop raw (decide (30 < num_particles))
        (checkListNotEmpty particle_features) (checkListNotEmpty jet_features)
        (particle_features.getD []) (jet_features.getD []) num_particles cats
      = (evs, .ok pjs)) :
    getDataStage2 st0 raw particle_features jet_features num_particles split
        split_fraction seed cats
      = (evs, getDataAssemble st0 (checkListNotEmpty particle_features)
          (checkListNotEmpty jet_features) pjs split split_fraction seed) := by
  unfold getDataStage2
  rw [hL]

theorem getDataLoop_take2 (raw : String → Tensor3 × Tensor2) (u p q : Bool)
    (pfeats jfeats : List String) (cap : ℕ) (j : String) (rest : List String) :
    ((getDataLoop raw u p q pfeats jfeats cap (j :: rest)).1).take 2
      = categoryEvents u j := by
  unfold getDataLoop
  cases loadCategory raw p q pfeats jfeats cap j with
  | error e => simp [categoryEvents]
  | ok pj => simp [categoryEvents]

theorem getDataLoop_no_request (raw : String → Tensor3 × Tensor2) (u : Bool)
    (pfeats jfeats : List String) (cap : ℕ) (cats : List String) :
    getDataLoop raw u false false pfeats jfeats cap cats
      = ((cats.map (categoryEvents u)).flatten,
         .ok (cats.map (fun _ => (none, none)))) := by
  induction cats with
  | nil => rfl
  | cons j rest ih =>
    unfold getDataLoop
    rw [show loadCategory raw false false pfeats jfeats cap j = .ok (none, none)
      from rfl]
    rw [ih]
    simp [Except.map]

theorem orderIndices_error_of_bad (features canonical : List String)
    (hbad : ∃ f ∈ features, f ∉ canonical) :
    ∃ g, g ∈ features ∧ g ∉ canonical ∧
      orderIndices features canonical = .error (.UnknownFeatureError g) := by
  induction features with
  | nil =>
    rcases hbad with ⟨f, hf, -⟩
    exact absurd hf (List.not_mem_nil f)
  | cons a rest ih =>
    by_cases ha : a ∈ canonical
    · have hbad2 : ∃ f ∈ rest, f ∉ canonical := by
        rcases hbad with ⟨f, hf, hfn⟩
        rcases List.mem_cons.mp hf with rfl | hf2
        · exact absurd ha hfn
        · exact ⟨f, hf2, hfn⟩
      rcases ih hbad2 with ⟨g, hg1, hg2, hg3⟩
      refine ⟨g, List.mem_cons_of_mem a hg1, hg2, ?_⟩
      unfold orderIndices
      rw [if_pos ha, hg3]
    · refine ⟨a, List.mem_cons_self a rest, ha, ?_⟩
      unfold orderIndices
      rw [if_neg ha]

theorem orderIndices_ok_of_sub (features canonical : List String)
    (hsub : ∀ f ∈ features, f ∈ canonical) :
    orderIndices features canonical
      = .ok (features.map (fun f => canonical.indexOf f)) := by
  induction features with
  | nil => rfl
  | cons f rest ih =>
    unfold orderIndices
    rw [if_pos (hsub f (List.mem_cons_self f rest)),
      ih (fun g hg => hsub g (List.mem_cons_of_mem f hg))]
    rfl

theorem getOrderedFeatures3_error_of_bad (data : Tensor3)
    (features canonical : List String) (hbad : ∃ f ∈ features, f ∉ canonical) :
    ∃ g, getOrderedFeatures3 data features canonical
      = .error (.UnknownFeatureError g) := by
  have hne : features ≠ canonical := by
    rcases hbad with ⟨f, hf, hfn⟩
    intro he
    exact hfn (he ▸ hf)
  rcases orderIndices_error_of_bad features canonical hbad with ⟨g, -, -, hg⟩
  refine ⟨g, ?_⟩
  unfold getOrderedFeatures3
  rw [if_neg hne, hg]
  rfl

theorem getOrderedFeatures2_error_of_bad (data : Tensor2)
    (features canonical : List String) (hbad : ∃ f ∈ features, f ∉ canonical) :
    ∃ g, getOrderedFeatures2 data features canonical
      = .error (.UnknownFeatureError g) := by
  have hne : features ≠ canonical := by
    rcases hbad with ⟨f, hf, hfn⟩
    intro he
    exact hfn (he ▸ hf)
  rcases orderIndices_error_of_bad features canonical hbad with ⟨g, -, -, hg⟩
  refine ⟨g, ?_⟩
  unfold getOrderedFeatures2
  rw [if_neg hne, hg]
  rfl

theorem getOrderedFeatures3_ok_of_sub (data : Tensor3)
    (features canonical : List String) (hsub : ∀ f ∈ features, f ∈ canonical) :
    ∃ T, getOrderedFeatures3 data features canonical = .ok T := by
  by_cases h : features = canonical
  · subst h
    refine ⟨data, ?_⟩
    unfold getOrderedFeatures3
    rw [if_pos rfl]
  · refine ⟨data.map (fun ex => ex.map
      (selectCols (features.map (fun f => canonical.indexOf f)))), ?_⟩
    unfold getOrderedFeatures3
    rw [if_neg h, orderIndices_ok_of_sub features canonical hsub]
    rfl

theorem loadCategory_error_bad_pf (raw : String → Tensor3 × Tensor2) (useJF : Bool)
    (pfeats jfeats : List String) (cap : ℕ) (j : String)
    (hbad : ∃ f ∈ pfeats, f ∉ particle_features_order) :
    ∃ g, loadCategory raw true useJF pfeats jfeats cap j
      = .error (.UnknownFeatureError g) := by
  rcases getOrderedFeatures3_error_of_bad (truncateParticles cap (raw j).1)
    pfeats particle_features_order hbad with ⟨g, hg⟩
  refine ⟨g, ?_⟩
  unfold loadCategory
  rw [hg]
  rfl

theorem loadCategory_error_bad_jf (raw : String → Tensor3 × Tensor2) (usePF : Bool)
    (pfeats jfeats : List String) (cap : ℕ) (j : String)
    (hgoodp : ∀ f ∈ pfeats, f ∈ particle_features_order)
    (hbad : ∃ f ∈ jfeats, f ∉ jet_features_order) :
    ∃ g, loadCategory raw usePF true pfeats jfeats cap j
      = .error (.UnknownFeatureError g) := by
  rcases getOrderedFeatures2_error_of_bad
    (buildJet (jet_types.indexOf j) (cap : ℚ) (raw j).2) jfeats jet_features_order
    hbad with ⟨g, hg⟩
  refine ⟨g, ?_⟩
  unfold loadCategory
  cases usePF with
  | false =>
    rw [hg]
    rfl
  | true =>
    rcases getOrderedFeatures3_ok_of_sub (truncateParticles cap (raw j).1)
      pfeats particle_features_order hgoodp with ⟨T, hT⟩
    rw [hT, hg]
    rfl

theorem getDataLoop_head_error (raw : String → Tensor3 × Tensor2) (u p q : Bool)
    (pfeats jfeats : List String) (cap : ℕ) (j : String) (rest : List String)
    (e : DataError) (hlc : loadCategory raw p q pfeats jfeats cap j = .error e) :
    getDataLoop raw u p q pfeats jfeats cap (j :: rest)
      = (categoryEvents u j, .error e) := by
  unfold getDataLoop
  rw [hlc]

theorem checkListNotEmpty_true_of_mem (o : Option (List String)) (f : String)
    (hf : f ∈ o.getD []) : checkListNotEmpty o = true := by
  cases o with
  | none => exact absurd hf (List.not_mem_nil f)
  | some xs =>
    cases xs with
    | nil => exact absurd hf (List.not_mem_nil f)
    | cons a t => rfl

/-- C5: getData's first download fetches the 150-element source variant (dataset name
`j ++ "150"`, Zenodo record 6975117) exactly when the requested element cap exceeds
30, and the 30-element variant (dataset name `j`, record 6975118) when the cap is at
most 30.  The spec calls the above-threshold variant the coarser-resolution source. -/
theorem source_variant_threshold (st0 : NpRandomState)
    (raw : String → Tensor3 × Tensor2) (pfo jfo : Option (List String)) (cap : ℕ)
    (split : String) (fracs : ℚ × ℚ × ℚ) (seed : ℕ) (j : String)
    (hj : j ∈ jet_types) :
    (30 < cap →
      (getData st0 raw [j] pfo jfo cap split fracs seed).1.take 2
        = [FetchEvent.download (j ++ "150") 6975117,
           FetchEvent.openFile (j ++ "150")]) ∧
    (cap ≤ 30 →
      (getData st0 raw [j] pfo jfo cap split fracs seed).1.take 2
        = [FetchEvent.download j 6975118, FetchEvent.openFile j]) := by
  have hcc := checkConvertElements_single j hj
  have hst := getData_eq_stage2 st0 raw [j] pfo jfo cap split fracs seed [j] hcc
  have htr : (getDataStage2 st0 raw pfo jfo cap split fracs seed [j]).1
      = (getDataLoop raw (decide (30 < cap)) (checkListNotEmpty pfo)
          (checkListNotEmpty jfo) (pfo.getD []) (jfo.getD []) cap [j]).1 := by
    unfold getDataStage2
    cases hL : getDataLoop raw (decide (30 < cap)) (checkListNotEmpty pfo)
        (checkListNotEmpty jfo) (pfo.getD []) (jfo.getD []) cap [j] with
    | mk evs r => cases r <;> rfl
  constructor
  · intro h30
    rw [hst, htr, getDataLoop_take2, decide_eq_true h30]
    simp [categoryEvents, dnameOf, zenodoRecordId]
  · intro h30
    rw [hst, htr, getDataLoop_take2, decide_eq_false (not_lt.mpr h30)]
    simp [categoryEvents, dnameOf, zenodoRecordId]

/-- Witness for C5 at cap 31 and category "g". -/
theorem source_variant_threshold_witness :
    ("g" ∈ jet_types) ∧
    ((30 < 31 →
      (getData ⟨0⟩ (fun _ => ([], [])) ["g"] none none 31 "train" (0, 0, 0) 0).1.take 2
        = [FetchEvent.download ("g" ++ "150") 6975117,
           FetchEvent.openFile ("g" ++ "150")]) ∧
    (31 ≤ 30 →
      (getData ⟨0⟩ (fun _ => ([], [])) ["g"] none none 31 "train" (0, 0, 0) 0).1.take 2
        = [FetchEvent.download "g" 6975118, FetchEvent.openFile "g"])) :=
  ⟨by decide,
    source_variant_threshold ⟨0⟩ (fun _ => ([], [])) none none 31 "train" (0, 0, 0) 0
      "g" (by decide)⟩

/-- C6 counterexample: requesting the unknown particle feature "foo" for category "g"
does end in UnknownFeatureError, but the event trace already holds the download and
the open of g's file — the error is not raised before file I/O, contradicting the
claim that no raw-source file is downloaded or opened before the error. -/
theorem unknown_feature_io_counterexample :
    getData ⟨0⟩ (fun _ => ([[[1]]], [[1, 2, 3, 4]])) ["g"] (some ["foo"])
        (some jet_features_order) 30 "train" (0, 0, 0) 42
      = ([FetchEvent.download "g" 6975118, FetchEvent.openFile "g"],
         .error (.UnknownFeatureError "foo")) := rfl

/-- C6 amended: every request (over a validly resolved, non-empty category list) whose
particle feature list contains a name absent from the canonical particle order, or
whose particle names are all valid while the jet feature list contains a name absent
from the canonical jet order, makes getData fail with UnknownFeatureError — but only
after the first category's raw file has been downloaded and opened: the trace equals
that category's download and open events rather than being empty. -/
theorem unknown_feature_after_io (st0 : NpRandomState)
    (raw : String → Tensor3 × Tensor2) (jetType : List String) (j : String)
    (rest : List String) (hcc : checkConvertElements jetType = .ok (j :: rest))
    (pfo jfo : Option (List String)) (cap : ℕ) (split : String) (fracs : ℚ × ℚ × ℚ)
    (seed : ℕ)
    (hbad : (∃ f ∈ pfo.getD [], f ∉ particle_features_order) ∨
      ((∀ f ∈ pfo.getD [], f ∈ particle_features_order) ∧
        ∃ f ∈ jfo.getD [], f ∉ jet_features_order)) :
    ∃ name, getData st0 raw jetType pfo jfo cap split fracs seed
      = (categoryEvents (decide (30 < cap)) j,
         .error (.UnknownFeatureError name)) := by
  rcases hbad with ⟨f, hf, hfn⟩ | ⟨hgoodp, f, hf, hfn⟩
  · have hp : checkListNotEmpty pfo = true := checkListNotEmpty_true_of_mem pfo f hf
    rcases loadCategory_error_bad_pf raw (checkListNotEmpty jfo) (pfo.getD [])
      (jfo.getD []) cap j ⟨f, hf, hfn⟩ with ⟨g, hlc⟩
    have hL : getDataLoop raw (decide (30 < cap)) (checkListNotEmpty pfo)
        (checkListNotEmpty jfo) (pfo.getD []) (jfo.getD []) cap (j :: rest)
        = (categoryEvents (decide (30 < cap)) j,
           .error (.UnknownFeatureError g)) := by
      rw [hp]
      exact getDataLoop_head_error raw (decide (30 < cap)) true
        (checkListNotEmpty jfo) (pfo.getD []) (jfo.getD []) cap j rest _ hlc
    refine ⟨g, ?_⟩
    rw [getData_eq_stage2 st0 raw jetType pfo jfo cap split fracs seed (j :: rest) hcc]
    exact stage2_of_loop_error st0 raw pfo jfo cap split fracs seed (j :: rest) _ _ hL
  · have hq : checkListNotEmpty jfo = true := checkListNotEmpty_true_of_mem jfo f hf
    rcases loadCategory_error_bad_jf raw (checkListNotEmpty pfo) (pfo.getD [])
      (jfo.getD []) cap j hgoodp ⟨f, hf, hfn⟩ with ⟨g, hlc⟩
    have hL : getDataLoop raw (decide (30 < cap)) (checkListNotEmpty pfo)
        (checkListNotEmpty jfo) (pfo.getD []) (jfo.getD []) cap (j :: rest)
        = (categoryEvents (decide (30 < cap)) j,
           .error (.UnknownFeatureError g)) := by
      rw [hq]
      exact getDataLoop_head_error raw (decide (30 < cap)) (checkListNotEmpty pfo)
        true (pfo.getD []) (jfo.getD []) cap j rest _ hlc
    refine ⟨g, ?_⟩
    rw [getData_eq_stage2 st0 raw jetType pfo jfo cap split fracs seed (j :: rest) hcc]
    exact stage2_of_loop_error st0 raw pfo jfo cap split fracs seed (j :: rest) _ _ hL

/-- Witness for C6's amended statement: the unknown particle name "bar" sits second in
the requested list, after the valid name "etarel", for category "g" at cap 30. -/
theorem unknown_feature_after_io_witness :
    (checkConvertElements ["g"] = .ok ("g" :: []) ∧
      ((∃ f ∈ (some ["etarel", "bar"] : Option (List String)).getD [],
          f ∉ particle_features_order) ∨
        ((∀ f ∈ (some ["etarel", "bar"] : Option (List String)).getD [],
            f ∈ particle_features_order) ∧
          ∃ f ∈ (none : Option (List String)).getD [],
            f ∉ jet_features_order))) ∧
    ∃ name, getData ⟨0⟩ (fun _ => ([], [])) ["g"] (some ["etarel", "bar"]) none 30
        "train" (0, 0, 0) 42
      = (categoryEvents (decide (30 < 30)) "g",
         .error (.UnknownFeatureError name)) :=
  ⟨⟨rfl, Or.inl ⟨"bar", by decide, by decide⟩⟩,
    unknown_feature_after_io ⟨0⟩ (fun _ => ([], [])) ["g"] "g" [] rfl
      (some ["etarel", "bar"]) none 30 "train" (0, 0, 0) 42
      (Or.inl ⟨"bar", by decide, by decide⟩)⟩

/-- C7: when neither particle nor jet features are requested (each list absent or
empty), getData fails with EmptyRequestError — no tensor pair is returned. -/
theorem empty_request_fails (st0 : NpRandomState) (raw : String → Tensor3 × Tensor2)
    (jetType cats : List String) (hcc : checkConvertElements jetType = .ok cats)
    (pfo jfo : Option (List String)) (hp : checkListNotEmpty pfo = false)
    (hq : checkListNotEmpty jfo = false) (cap : ℕ) (split : String)
    (fracs : ℚ × ℚ × ℚ) (seed : ℕ) :
    (getData st0 raw jetType pfo jfo cap split fracs seed).2
      = .error .EmptyRequestError := by
  have hL : getDataLoop raw (decide (30 < cap)) (checkListNotEmpty pfo)
      (checkListNotEmpty jfo) (pfo.getD []) (jfo.getD []) cap cats
      = ((cats.map (categoryEvents (decide (30 < cap)))).flatten,
         .ok (cats.map (fun _ => (none, none)))) := by
    rw [hp, hq]
    exact getDataLoop_no_request raw (decide (30 < cap)) (pfo.getD [])
      (jfo.getD []) cap cats
  rw [getData_eq_stage2 st0 raw jetType pfo jfo cap split fracs seed cats hcc,
    stage2_of_loop_ok st0 raw pfo jfo cap split fracs seed cats _ _ hL]
  unfold getDataAssemble
  rw [hp, hq]
  rfl

/-- Witness for C7 with both feature requests empty. -/
theorem empty_request_fails_witness :
    (checkConvertElements ["all"] = .ok jet_types ∧
      checkListNotEmpty none = false ∧ checkListNotEmpty (some []) = false) ∧
    (getData ⟨0⟩ (fun _ => ([], [])) ["all"] none (some []) 30 "train" (0, 0, 0) 42).2
      = .error .EmptyRequestError :=
  ⟨⟨rfl, rfl, rfl⟩,
    empty_request_fails ⟨0⟩ (fun _ => ([], [])) ["all"] jet_types rfl none
      (some []) rfl rfl 30 "train" (0, 0, 0) 42⟩

/-! ## Lemmas for the jet-only request claim -/

theorem map_indexOf_row5 (row : Row) (h5 : row.length = 5) :
    jet_features_order.map (fun f => row.getD (jet_features_order.indexOf f) 0)
      = row := by
  rcases row with _ | ⟨a, _ | ⟨b, _ | ⟨c, _ | ⟨d, _ | ⟨e, _ | ⟨x, t⟩⟩⟩⟩⟩⟩
  all_goals first
    | rfl
    | (exfalso; simp [List.length] at h5)

theorem getOrderedFeatures2_jet_rows (data : Tensor2) (features : List String)
    (hsub : ∀ f ∈ features, f ∈ jet_features_order)
    (h5 : ∀ row ∈ data, row.length = 5) :
    ∃ T, getOrderedFeatures2 data features jet_features_order = .ok T ∧
      ∀ row ∈ T, ∃ src : Row,
        row = features.map (fun f => src.getD (jet_features_order.indexOf f) 0) := by
  by_cases h : features = jet_features_order
  · subst h
    refine ⟨data, by unfold getOrderedFeatures2; rw [if_pos rfl], ?_⟩
    intro row hrow
    exact ⟨row, (map_indexOf_row5 row (h5 row hrow)).symm⟩
  · refine ⟨data.map
      (selectCols (features.map (fun f => jet_features_order.indexOf f))), ?_, ?_⟩
    · unfold getOrderedFeatures2
      rw [if_neg h, orderIndices_ok_of_sub features jet_features_order hsub]
      rfl
    · intro row hrow
      rcases List.mem_map.mp hrow with ⟨src, hsrc, rfl⟩
      refine ⟨src, ?_⟩
      simp [selectCols, List.map_map]

theorem buildJet_row_length (c : ℕ) (cap : ℚ) (jf : Tensor2)
    (h4 : ∀ r ∈ jf, r.length = 4) :
    ∀ row ∈ buildJet c cap jf, row.length = 5 := by
  intro row hrow
  rcases List.mem_map.mp hrow with ⟨src, hsrc, rfl⟩
  have h := h4 src hsrc
  simp [List.length_append, List.length_take, List.length_map, List.length_drop, h]

theorem loadCategory_jet_only (raw : String → Tensor3 × Tensor2)
    (pfeats jfeats : List String) (cap : ℕ) (j : String) (T : Tensor2)
    (hT : getOrderedFeatures2 (buildJet (jet_types.indexOf j) (cap : ℚ) (raw j).2)
        jfeats jet_features_order = .ok T) :
    loadCategory raw false true pfeats jfeats cap j = .ok (none, some T) := by
  unfold loadCategory
  rw [hT]
  rfl

theorem getDataLoop_jet_only (raw : String → Tensor3 × Tensor2) (u : Bool)
    (pfeats jl : List String) (cap : ℕ)
    (hsub : ∀ f ∈ jl, f ∈ jet_features_order)
    (h4 : ∀ j r, r ∈ (raw j).2 → r.length = 4) :
    ∀ cats, ∃ pjs,
      getDataLoop raw u false true pfeats jl cap cats
        = ((cats.map (categoryEvents u)).flatten, .ok pjs) ∧
      ∀ pj ∈ pjs, pj.1 = none ∧ ∃ T, pj.2 = some T ∧
        ∀ row ∈ T, ∃ src : Row,
          row = jl.map (fun f => src.getD (jet_features_order.indexOf f) 0) := by
  intro cats
  induction cats with
  | nil => exact ⟨[], rfl, by simp⟩
  | cons j rest ih =>
    rcases ih with ⟨pjs, hloop, hgood⟩
    rcases getOrderedFeatures2_jet_rows
        (buildJet (jet_types.indexOf j) (cap : ℚ) (raw j).2) jl hsub
        (buildJet_row_length (jet_types.indexOf j) (cap : ℚ) (raw j).2
          (fun r hr => h4 j r hr))
      with ⟨T, hT, hTrows⟩
    refine ⟨(none, some T) :: pjs, ?_, ?_⟩
    · unfold getDataLoop
      rw [loadCategory_jet_only raw pfeats jl cap j T hT, hloop]
      simp [Except.map]
    · intro pj hpj
      rcases List.mem_cons.mp hpj with rfl | hpj
      · exact ⟨rfl, T, rfl, hTrows⟩
      · exact hgood pj hpj

theorem getSplitting_isOk (N : ℕ) (split : String) (fracs : ℚ × ℚ × ℚ)
    (hsp : split ∈ splits) : ∃ lr : ℤ × ℤ, getSplitting N split fracs = .ok lr := by
  unfold getSplitting
  rw [if_neg (not_not_intro hsp)]
  by_cases h1 : split = "all"
  · rw [if_pos h1]; exact ⟨_, rfl⟩
  · rw [if_neg h1]
    by_cases h2 : split = "train"
    · rw [if_pos h2]; exact ⟨_, rfl⟩
    · rw [if_neg h2]
      by_cases h3 : split = "valid"
      · rw [if_pos h3]; exact ⟨_, rfl⟩
      · rw [if_neg h3]; exact ⟨_, rfl⟩

theorem getDataAssemble_jet_only (st0 : NpRandomState)
    (pjs : List (Option Tensor3 × Option Tensor2)) (split : String)
    (fracs : ℚ × ℚ × ℚ) (seed : ℕ) (l r : ℤ)
    (hsp : getSplitting ((pjs.map (fun pj => pj.2.getD [])).flatten).length split
        fracs = .ok (l, r)) :
    getDataAssemble st0 false true pjs split fracs seed
      = .ok (none, some (sliceRows (permuteRows
          ((pjs.map (fun pj => pj.2.getD [])).flatten)
          (npPermutation (npSeed seed)
            ((pjs.map (fun pj => pj.2.getD [])).flatten).length)) l r)) := by
  unfold getDataAssemble
  rw [show concatParticle false pjs = none from rfl,
    show concatJet true pjs = some ((pjs.map (fun pj => pj.2.getD [])).flatten)
      from rfl,
    show presentLength none (some ((pjs.map (fun pj => pj.2.getD [])).flatten))
      = .ok ((pjs.map (fun pj => pj.2.getD [])).flatten).length from rfl]
  dsimp only
  unfold shuffleSplit
  rw [hsp]
  rfl

theorem mem_of_mem_sliceRows {a : α} (t : List α) (l r : ℤ)
    (h : a ∈ sliceRows t l r) : a ∈ t :=
  List.mem_of_mem_drop (List.mem_of_mem_take h)

theorem mem_of_mem_permuteRows [Inhabited α] {a : α} {t : List α} {perm : List ℕ}
    (h : a ∈ permuteRows t perm) (hb : ∀ k ∈ perm, k < t.length) : a ∈ t := by
  rcases List.mem_map.mp h with ⟨k, hk, rfl⟩
  rw [List.getD_eq_getElem t default (hb k hk)]
  exact List.getElem_mem _

theorem npPermutation_lt (seed N k : ℕ)
    (hk : k ∈ npPermutation (npSeed seed) N) : k < N :=
  List.mem_range.mp
    ((fyDraw_perm (npSeed seed).val (List.range N)).mem_iff.mp hk)

/-- C9: an empty-or-absent particle request together with a non-empty jet request
returns an absent particle tensor and a present jet tensor each of whose rows lists
exactly the requested features, in the requested order (channel `c` of a row holds the
canonical-position-`indexOf (jl.get c)` value of some underlying assembled row). -/
theorem jet_only_request (st0 : NpRandomState) (raw : String → Tensor3 × Tensor2)
    (jl : List String) (hne : jl ≠ [])
    (hsub : ∀ f ∈ jl, f ∈ jet_features_order)
    (h4 : ∀ j r, r ∈ (raw j).2 → r.length = 4)
    (pfo : Option (List String)) (hp : checkListNotEmpty pfo = false)
    (cap seed : ℕ) (split : String) (hsp : split ∈ splits) (fracs : ℚ × ℚ × ℚ) :
    ∃ T, (getData st0 raw ["all"] pfo (some jl) cap split fracs seed).2
        = .ok (none, some T) ∧
      ∀ row ∈ T, ∃ src : Row,
        row = jl.map (fun f => src.getD (jet_features_order.indexOf f) 0) := by
  have hq : checkListNotEmpty (some jl) = true := by
    cases jl with
    | nil => exact absurd rfl hne
    | cons a t => rfl
  rcases getDataLoop_jet_only raw (decide (30 < cap)) (pfo.getD []) jl cap hsub h4
      jet_types with ⟨pjs, hloop, hgood⟩
  have hL : getDataLoop raw (decide (30 < cap)) (checkListNotEmpty pfo)
      (checkListNotEmpty (some jl)) (pfo.getD []) ((some jl).getD []) cap jet_types
      = ((jet_types.map (categoryEvents (decide (30 < cap)))).flatten, .ok pjs) := by
    rw [hp, hq]
    exact hloop
  have hgd : getData st0 raw ["all"] pfo (some jl) cap split fracs seed
      = ((jet_types.map (categoryEvents (decide (30 < cap)))).flatten,
         getDataAssemble st0 (checkListNotEmpty pfo) (checkListNotEmpty (some jl))
           pjs split fracs seed) := by
    rw [getData_eq_stage2 st0 raw ["all"] pfo (some jl) cap split fracs seed
      jet_types rfl]
    exact stage2_of_loop_ok st0 raw pfo (some jl) cap split fracs seed jet_types _ _ hL
  obtain ⟨⟨l, r⟩, hsplitok⟩ := getSplitting_isOk
    ((pjs.map (fun pj => pj.2.getD [])).flatten).length split fracs hsp
  have hassem : getDataAssemble st0 (checkListNotEmpty pfo)
      (checkListNotEmpty (some jl)) pjs split fracs seed
      = .ok (none, some (sliceRows (permuteRows
          ((pjs.map (fun pj => pj.2.getD [])).flatten)
          (npPermutation (npSeed seed)
            ((pjs.map (fun pj => pj.2.getD [])).flatten).length)) l r)) := by
    rw [hp, hq]
    exact getDataAssemble_jet_only st0 pjs split fracs seed l r hsplitok
  refine ⟨sliceRows (permuteRows ((pjs.map (fun pj => pj.2.getD [])).flatten)
      (npPermutation (npSeed seed)
        ((pjs.map (fun pj => pj.2.getD [])).flatten).length)) l r, ?_, ?_⟩
  · rw [hgd]
    exact hassem
  · intro row hrow
    have hrowJ : row ∈ (pjs.map (fun pj => pj.2.getD [])).flatten := by
      refine mem_of_mem_permuteRows (mem_of_mem_sliceRows _ _ _ hrow) ?_
      intro k hk
      exact npPermutation_lt seed _ k hk
    rcases List.mem_flatten.mp hrowJ with ⟨L, hLmem, hrowL⟩
    rcases List.mem_map.mp hLmem with ⟨pj, hpj, rfl⟩
    rcases hgood pj hpj with ⟨-, T', hT', hTrows⟩
    rw [hT'] at hrowL
    exact hTrows row hrowL

/-- Witness for C9: particle list absent, jet list `["pt"]`, each category file holding
one four-channel jet row. -/
theorem jet_only_request_witness :
    ((["pt"] : List String) ≠ [] ∧
      (∀ f ∈ (["pt"] : List String), f ∈ jet_features_order) ∧
      (∀ j r, r ∈ ((fun _ : String => (([] : Tensor3), [[(1 : ℚ), 2, 3, 4]])) j).2 →
        r.length = 4) ∧
      checkListNotEmpty none = false ∧ "all" ∈ splits) ∧
    ∃ T, (getData ⟨0⟩ (fun _ : String => (([] : Tensor3), [[(1 : ℚ), 2, 3, 4]]))
        ["all"] none (some ["pt"]) 30 "all" (0, 0, 0) 0).2
        = .ok (none, some T) ∧
      ∀ row ∈ T, ∃ src : Row,
        row = (["pt"] : List String).map
          (fun f => src.getD (jet_features_order.indexOf f) 0) :=
  ⟨⟨by decide, by decide, fun j r hr => by rw [List.mem_singleton.mp hr]; rfl, rfl,
      by decide⟩,
    jet_only_request ⟨0⟩ (fun _ : String => (([] : Tensor3), [[(1 : ℚ), 2, 3, 4]]))
      ["pt"] (by decide) (by decide) (fun j r hr => by rw [List.mem_singleton.mp hr]; rfl)
      none rfl 30 0 "all" (by decide) (0, 0, 0)⟩

/-- C10: getData never validates the documented upper bound of 150 on the element
cap: for every cap above 150 it still returns a tensor pair (no error on that
account, here with the default feature requests); the particle truncation simply
keeps `min cap rawElements` elements per example; and the jet clamp uses the
oversized cap itself as the bound, so raw values ≤ 150 pass through unchanged. -/
theorem no_cap_validation (cap : ℕ) (hcap : 150 < cap) :
    (∀ (st0 : NpRandomState) (raw : String → Tensor3 × Tensor2)
        (fracs : ℚ × ℚ × ℚ) (seed : ℕ), ∃ P J,
      (getData st0 raw ["all"] (some particle_features_order)
          (some jet_features_order) cap "all" fracs seed).2 = .ok (some P, some J)) ∧
    (∀ (pf : Tensor3) (i : ℕ), i < pf.length →
      ((truncateParticles cap pf).getD i []).length
        = min cap (pf.getD i []).length) ∧
    (∀ (c : ℕ) (jf : Tensor2) (row : Row), row ∈ buildJet c (cap : ℚ) jf →
      ∃ src ∈ jf,
        row = (c : ℚ) :: (src.take 3 ++ (src.drop 3).map (fun v => min v (cap : ℚ))) ∧
        ∀ v ∈ src.drop 3, v ≤ 150 → min v (cap : ℚ) = v) := by
  refine ⟨?_, ?_, ?_⟩
  · intro st0 raw fracs seed
    rw [getData_eq_stage2 st0 raw ["all"] (some particle_features_order)
      (some jet_features_order) cap "all" fracs seed jet_types rfl]
    exact ⟨_, _, rfl⟩
  · intro pf i hi
    have hlen : i < (truncateParticles cap pf).length := by
      simpa [truncateParticles] using hi
    rw [List.getD_eq_getElem _ _ hlen, List.getD_eq_getElem pf [] hi]
    simp [truncateParticles, List.length_take]
  · intro c jf row hrow
    rcases List.mem_map.mp hrow with ⟨src, hsrc, rfl⟩
    refine ⟨src, hsrc, rfl, ?_⟩
    intro v hv hv150
    have hvc : v ≤ (cap : ℚ) := le_trans hv150 (by exact_mod_cast le_of_lt hcap)
    exact min_eq_left hvc

/-- Witness for C10 at cap 200. -/
theorem no_cap_validation_witness :
    150 < 200 ∧
    ((∀ (st0 : NpRandomState) (raw : String → Tensor3 × Tensor2)
        (fracs : ℚ × ℚ × ℚ) (seed : ℕ), ∃ P J,
      (getData st0 raw ["all"] (some particle_features_order)
          (some jet_features_order) 200 "all" fracs seed).2 = .ok (some P, some J)) ∧
    (∀ (pf : Tensor3) (i : ℕ), i < pf.length →
      ((truncateParticles 200 pf).getD i []).length
        = min 200 (pf.getD i []).length) ∧
    (∀ (c : ℕ) (jf : Tensor2) (row : Row), row ∈ buildJet c ((200 : ℕ) : ℚ) jf →
      ∃ src ∈ jf,
        row = (c : ℚ) :: (src.take 3
          ++ (src.drop 3).map (fun v => min v ((200 : ℕ) : ℚ))) ∧
        ∀ v ∈ src.drop 3, v ≤ 150 → min v ((200 : ℕ) : ℚ) = v)) :=
  ⟨by norm_num, no_cap_validation 200 (by norm_num)⟩

end JetNetData
